import Mathlib

/-!
Verification of the car-game simulation and synchronization subsystem.

This file gives a shallow embedding, over exact rationals, of the parts of
the code base that the specification's claims are about:

* the server-side authoritative physics step
  (`src/server/game/physicsEngine.ts`, `PhysicsEngine.updateCar` followed by
  the Matter.js integration stage, and `PhysicsEngine.applyWrapAround`);
* the client-side predictor (`simulateStep`, `recordInput`,
  `reconcileWithServer` from the client prediction module);
* room-level race arbitration (`GameRoom.handleInput`, `handleRespawn`,
  `handleLapComplete`);
* the room manager (`RoomManager.joinRoom`);
* the snapshot serializer (`serializeCarState` / `deserializeCarState`);
* the leaderboard insertion (`LeaderboardManager.submitLapTime`).

Numbers are modelled as exact rationals.  The transcendental functions the
code takes from the host platform (Math.sin, Math.cos, Math.sqrt, Math.atan2
and the constant Math.PI) are abstracted as a record of rational-valued
functions, `JsMath`; both the server and the client call the very same host
functions, so a statement quantified over every `JsMath` instance covers the
real execution, and concrete counterexamples instantiate `JsMath` with
functions that agree with the host values at every point at which they are
actually evaluated.

Wall-clock bookkeeping fields that no claim mentions (Date.now timestamps
such as lastPositionTime, stuckStartTime, lastActivity) are omitted from the
state records; no modelled function reads them.
-/

/-- Host math primitives (the JavaScript Math object), abstracted as
rational-valued functions shared by the server and the client. -/
structure JsMath where
  sin : ℚ → ℚ
  cos : ℚ → ℚ
  sqrt : ℚ → ℚ
  atan2 : ℚ → ℚ → ℚ
  pi : ℚ

/- Physics constants from `src/shared/constants/colors.ts` (PHYSICS_CONSTANTS). -/

def ENGINE_FORCE : ℚ := 12.0

def REVERSE_FORCE : ℚ := 3.5

def DRAG_COEFFICIENT : ℚ := 0.015

def ROLLING_RESISTANCE : ℚ := 0.012

/-- MAX_STEERING_ANGLE is Math.PI / 10; Math.PI comes from the host. -/
def MAX_STEERING_ANGLE (m : JsMath) : ℚ := m.pi / 10

def MAX_ANGULAR_VELOCITY : ℚ := 2.0

def MAX_SPEED : ℚ := 20

def MAX_REVERSE_SPEED : ℚ := 10

def NITRO_BOOST_MULTIPLIER : ℚ := 1.3

def NITRO_MAX : ℚ := 100

def NITRO_DRAIN_RATE : ℚ := 50

def NITRO_RECHARGE_RATE : ℚ := 10

/-- vec2Length from the client prediction module: Math.sqrt(x*x + y*y).
Matter.Vector.magnitude on the server computes the same expression. -/
def vec2Length (m : JsMath) (x y : ℚ) : ℚ := m.sqrt (x * x + y * y)

/-- Matter.Vector.rotate: rotate a vector by an angle. -/
def rotateVec (m : JsMath) (v : ℚ × ℚ) (angle : ℚ) : ℚ × ℚ :=
  (v.1 * m.cos angle - v.2 * m.sin angle, v.1 * m.sin angle + v.2 * m.cos angle)

/-- Math.sign. -/
def jsSign (q : ℚ) : ℚ := if q > 0 then 1 else if q < 0 then -1 else 0

/-- Client-side input record (client prediction module, InputRecord).
`steerValue` is always present in the record the client builds. -/
structure InputRecord where
  sequence : ℕ
  timestamp : ℚ
  accelerate : Bool
  brake : Bool
  steerLeft : Bool
  steerRight : Bool
  steerValue : ℚ
  nitro : Bool
  handbrake : Bool
deriving DecidableEq, Repr

/-- Client-side predicted kinematic state (client prediction module,
PredictedState). -/
structure PredictedState where
  x : ℚ
  y : ℚ
  rotation : ℚ
  vx : ℚ
  vy : ℚ
  angularVelocity : ℚ
deriving DecidableEq, Repr

/- Server-matching constants baked into the client predictor. -/

def SERVER_BODY_MASS : ℚ := 1.2

def MATTER_DT : ℚ := 1000 / 60

def MATTER_DT_SQUARED : ℚ := MATTER_DT * MATTER_DT

def MATTER_FRICTION_AIR : ℚ := 1 - 0.01

/-- One client prediction physics step (`simulateStep` in the client
prediction module).  Field-for-field transcription of the source:
force accumulation, braking, steering (analog value first, then the
boolean flags), drag with the pre-tick speed, speed clamp, then the
Verlet integration that mirrors Matter.js. -/
def simulateStep (m : JsMath) (state : PredictedState) (input : InputRecord) : PredictedState :=
  let forwardX := m.sin state.rotation
  let forwardY := -(m.cos state.rotation)
  let speed := vec2Length m state.vx state.vy
  let forwardSpeed := state.vx * forwardX + state.vy * forwardY
  -- 1. accumulate forces
  let f1 : ℚ × ℚ :=
    if input.accelerate ∧ speed < MAX_SPEED then
      (forwardX * ENGINE_FORCE * 0.001, forwardY * ENGINE_FORCE * 0.001)
    else (0, 0)
  let f2 : ℚ × ℚ :=
    if input.nitro then
      (f1.1 + forwardX * ENGINE_FORCE * 0.0015, f1.2 + forwardY * ENGINE_FORCE * 0.0015)
    else f1
  -- 2. direct velocity modifications (braking)
  let v1 : ℚ × ℚ :=
    if input.brake ∧ (forwardSpeed > 0.5 ∧ forwardSpeed > 1) then
      (state.vx * 0.95, state.vy * 0.95)
    else (state.vx, state.vy)
  let f3 : ℚ × ℚ :=
    if input.brake ∧ ¬(forwardSpeed > 0.5 ∧ forwardSpeed > 1) ∧ speed < MAX_REVERSE_SPEED then
      (f2.1 - forwardX * REVERSE_FORCE * 0.001, f2.2 - forwardY * REVERSE_FORCE * 0.001)
    else f2
  -- 3. steering: analog value when nonzero, else boolean flags
  let steerInput : ℚ :=
    if input.steerValue ≠ 0 then input.steerValue
    else if input.steerLeft then -1
    else if input.steerRight then 1
    else 0
  let angVel1 : ℚ :=
    if steerInput ≠ 0 then
      (if speed > 0.5 then
        let speedFactor : ℚ :=
          if speed < 3 then speed / 3
          else if speed < 15 then 1.0
          else max 0.5 (15 / speed)
        let turnForce := steerInput * MAX_STEERING_ANGLE m * 0.18 * speedFactor
        let reverseMult : ℚ := if forwardSpeed < -0.5 then -1 else 1
        turnForce * reverseMult
      else state.angularVelocity)
    else state.angularVelocity * 0.85
  let angVel2 : ℚ :=
    if |angVel1| > MAX_ANGULAR_VELOCITY then jsSign angVel1 * MAX_ANGULAR_VELOCITY
    else angVel1
  -- 4. drag, using the pre-tick speed
  let dragFactor := 1 - DRAG_COEFFICIENT * speed - ROLLING_RESISTANCE
  let v2 : ℚ × ℚ := (v1.1 * dragFactor, v1.2 * dragFactor)
  -- 5. speed clamp, comparing the pre-drag speed
  let maxSpeedNow := if input.nitro then MAX_SPEED * NITRO_BOOST_MULTIPLIER else MAX_SPEED
  let v3 : ℚ × ℚ :=
    if speed > maxSpeedNow then (v2.1 * (maxSpeedNow / speed), v2.2 * (maxSpeedNow / speed))
    else v2
  -- 6. Verlet integration (replaces Matter.js Body.update)
  let v4 : ℚ × ℚ :=
    (v3.1 * MATTER_FRICTION_AIR + f3.1 / SERVER_BODY_MASS * MATTER_DT_SQUARED,
     v3.2 * MATTER_FRICTION_AIR + f3.2 / SERVER_BODY_MASS * MATTER_DT_SQUARED)
  let angVel3 := angVel2 * MATTER_FRICTION_AIR
  let rotation2 := state.rotation + angVel3
  -- 7. position update (no wrap on the client)
  { x := state.x + v4.1, y := state.y + v4.2, rotation := rotation2,
    vx := v4.1, vy := v4.2, angularVelocity := angVel3 }

/-- Server-side input record (`src/shared/types/player.ts`, PlayerInput). -/
structure PlayerInput where
  playerId : String
  sequence : ℕ
  timestamp : ℚ
  accelerate : Bool
  brake : Bool
  steerLeft : Bool
  steerRight : Bool
  steerValue : ℚ
  nitro : Bool
  handbrake : Bool
  respawn : Bool
deriving DecidableEq, Repr

/-- Server-side per-car physics state: the kinematic fields of the Matter.js
body plus the CarPhysicsState fields the step reads and writes
(`src/server/game/physicsEngine.ts`). -/
structure ServerCar where
  x : ℚ
  y : ℚ
  angle : ℚ
  vx : ℚ
  vy : ℚ
  angularVelocity : ℚ
  nitroActive : Bool
  nitroAmount : ℚ
deriving DecidableEq, Repr

/-- One authoritative server physics step for a car with an input applied:
`PhysicsEngine.updateCar` (forces via Matter.Body.applyForce, braking, flag
steering, nitro, drag, speed clamp, angular clamp), followed by the
Matter.js integration stage of `Matter.Engine.update`.

The integration stage is external library code (matter-js); it is modelled
from the spec: Verlet update `v := v * (1 - frictionAir) + (F / mass) * DT^2`
with DT = 1000/60 ms, mass = density * area = 0.002 * 30 * 20 = 1.2,
frictionAir = 0.01, infinite rotational inertia (torque ignored), then
position += velocity and rotation += angular velocity.  The client source
documents the identical formula. -/
def serverStep (m : JsMath) (car : ServerCar) (input : PlayerInput) (deltaTime : ℚ) : ServerCar :=
  let currentSpeed := vec2Length m car.vx car.vy
  let forwardX := m.sin car.angle
  let forwardY := -(m.cos car.angle)
  let forwardSpeed := car.vx * forwardX + car.vy * forwardY
  -- acceleration only under the speed limit: applyForce(rotate((0, -ENGINE_FORCE*0.001), angle))
  let f1 : ℚ × ℚ :=
    if input.accelerate ∧ currentSpeed < MAX_SPEED then
      rotateVec m (0, -(ENGINE_FORCE * 0.001)) car.angle
    else (0, 0)
  -- braking while moving forward, else reverse force while slow
  let v1 : ℚ × ℚ :=
    if input.brake ∧ (forwardSpeed > 0.5 ∧ forwardSpeed > 1) then
      (car.vx * 0.95, car.vy * 0.95)
    else (car.vx, car.vy)
  let f2 : ℚ × ℚ :=
    if input.brake ∧ ¬(forwardSpeed > 0.5 ∧ forwardSpeed > 1) ∧ currentSpeed < MAX_REVERSE_SPEED then
      let rev := rotateVec m (0, REVERSE_FORCE * 0.001) car.angle
      (f1.1 + rev.1, f1.2 + rev.2)
    else f1
  -- steering: boolean flags only, a set steerRight overrides steerLeft
  let steer0 : ℚ := 0
  let steer1 : ℚ := if input.steerLeft then -1 else steer0
  let steerInput : ℚ := if input.steerRight then 1 else steer1
  let angVel1 : ℚ :=
    if steerInput ≠ 0 then
      (if currentSpeed > 0.5 then
        let speedFactor : ℚ :=
          if currentSpeed < 3 then currentSpeed / 3
          else if currentSpeed < 15 then 1.0
          else max 0.5 (15 / currentSpeed)
        let turnForce := steerInput * MAX_STEERING_ANGLE m * 0.18 * speedFactor
        let reverseMult : ℚ := if forwardSpeed < -0.5 then -1 else 1
        turnForce * reverseMult
      else car.angularVelocity)
    else car.angularVelocity * 0.85
  -- nitro: force only while the tank is nonempty; drain or recharge the tank
  let nitroOn : Bool := input.nitro && decide (car.nitroAmount > 0)
  let nitroAmount2 : ℚ :=
    if nitroOn then max 0 (car.nitroAmount - NITRO_DRAIN_RATE * deltaTime)
    else min NITRO_MAX (car.nitroAmount + NITRO_RECHARGE_RATE * deltaTime)
  let f3 : ℚ × ℚ :=
    if nitroOn then
      let boost := rotateVec m (0, -(ENGINE_FORCE * 0.0015)) car.angle
      (f2.1 + boost.1, f2.2 + boost.2)
    else f2
  -- drag and rolling resistance, using the pre-tick speed
  let v2 : ℚ × ℚ :=
    (v1.1 * (1 - DRAG_COEFFICIENT * currentSpeed - ROLLING_RESISTANCE),
     v1.2 * (1 - DRAG_COEFFICIENT * currentSpeed - ROLLING_RESISTANCE))
  -- speed limit (raised while nitroActive), comparing the pre-drag speed
  let maxSpeedNow := if nitroOn then MAX_SPEED * NITRO_BOOST_MULTIPLIER else MAX_SPEED
  let v3 : ℚ × ℚ :=
    if currentSpeed > maxSpeedNow then
      (v2.1 * (maxSpeedNow / currentSpeed), v2.2 * (maxSpeedNow / currentSpeed))
    else v2
  -- angular velocity clamp
  let angVel2 : ℚ :=
    if |angVel1| > MAX_ANGULAR_VELOCITY then
      MAX_ANGULAR_VELOCITY * (if angVel1 > 0 then 1 else -1)
    else angVel1
  -- Matter.js integration stage (modelled from the spec, see the doc comment)
  let v4 : ℚ × ℚ :=
    (v3.1 * (1 - 0.01) + f3.1 / 1.2 * (MATTER_DT * MATTER_DT),
     v3.2 * (1 - 0.01) + f3.2 / 1.2 * (MATTER_DT * MATTER_DT))
  let angVel3 := angVel2 * (1 - 0.01)
  { x := car.x + v4.1, y := car.y + v4.2, angle := car.angle + angVel3,
    vx := v4.1, vy := v4.2, angularVelocity := angVel3,
    nitroActive := nitroOn, nitroAmount := nitroAmount2 }

/-- Kinematic projection of a server car, for comparison with the client
predictor's state. -/
def ServerCar.toPredicted (c : ServerCar) : PredictedState :=
  { x := c.x, y := c.y, rotation := c.angle, vx := c.vx, vy := c.vy,
    angularVelocity := c.angularVelocity }

/-- The client-side record carrying the same control values as a server
input (the client records exactly these fields for each sent input). -/
def PlayerInput.toClientRecord (i : PlayerInput) : InputRecord :=
  { sequence := i.sequence, timestamp := i.timestamp, accelerate := i.accelerate,
    brake := i.brake, steerLeft := i.steerLeft, steerRight := i.steerRight,
    steerValue := i.steerValue, nitro := i.nitro, handbrake := i.handbrake }

/-- JsMath instantiation used for concrete evaluations.  Each function agrees
with the host's value at every point at which the concrete runs below
evaluate it: the cars involved have rotation 0 (Math.sin 0 = 0,
Math.cos 0 = 1, exactly, in IEEE doubles) and axis-aligned velocities
(so sqrt (x*x + y*y) with one component 0 is exact). -/
def testMath : JsMath :=
  { sin := fun _ => 0, cos := fun _ => 1,
    sqrt := fun q => if q = 25 then 5 else 0,
    atan2 := fun _ _ => 0, pi := 3.14159 }

/-- A car rolling straight up (forward, rotation 0) at speed 5. -/
def demoCar : ServerCar :=
  { x := 400, y := 300, angle := 0, vx := 0, vy := -5, angularVelocity := 0,
    nitroActive := false, nitroAmount := 100 }

/-- An analog (tilt/touch) steering input: steerValue 0.5 with both boolean
flags clear. -/
def demoInput : PlayerInput :=
  { playerId := "p1", sequence := 7, timestamp := 0, accelerate := false,
    brake := false, steerLeft := false, steerRight := false, steerValue := 0.5,
    nitro := false, handbrake := false, respawn := false }

/-- C2 supporting theorem: the authoritative integrator never reads
steerValue.  Changing nothing but the analog steering value of the input
record leaves the server step's output bit-for-bit unchanged, for every
math instance, car state, input and tick length; the claimed resolution
rule (analog when nonzero, flags otherwise) is therefore absent from the
server, while the client predictor implements it. -/
theorem c2_server_ignores_steerValue (m : JsMath) (car : ServerCar) (i : PlayerInput)
    (dt s s' : ℚ) :
    serverStep m car { i with steerValue := s } dt
      = serverStep m car { i with steerValue := s' } dt := rfl

set_option maxHeartbeats 4000000

/-- C1 counterexample: starting from the same kinematic state (speed 5,
rotation 0) and the same input record (analog steerValue 0.5, no flags),
the server step and the client simulateStep produce different next states:
the client steers (nonzero angular velocity and rotation), the server does
not, because it ignores steerValue.  So the two integrators are not
identical on every input record. -/
theorem c1_counterexample :
    (serverStep testMath demoCar demoInput (1/60)).toPredicted
      ≠ simulateStep testMath demoCar.toPredicted demoInput.toClientRecord := by
  intro h
  have h2 := congrArg PredictedState.angularVelocity h
  simp only [serverStep, simulateStep, ServerCar.toPredicted, PlayerInput.toClientRecord,
    vec2Length, rotateVec, jsSign, testMath, demoCar, demoInput,
    MAX_SPEED, MAX_REVERSE_SPEED, MAX_ANGULAR_VELOCITY, MAX_STEERING_ANGLE,
    ENGINE_FORCE, REVERSE_FORCE, DRAG_COEFFICIENT, ROLLING_RESISTANCE,
    NITRO_BOOST_MULTIPLIER, NITRO_MAX, NITRO_DRAIN_RATE, NITRO_RECHARGE_RATE,
    MATTER_FRICTION_AIR, MATTER_DT, MATTER_DT_SQUARED, SERVER_BODY_MASS] at h2
  norm_num [abs_of_nonneg] at h2

/-- The server's angular-velocity clamp (MAX * (angVel > 0 ? 1 : -1)) agrees
with the client's (Math.sign(angVel) * MAX) whenever the clamp is reachable,
because |angVel| > MAX rules out angVel = 0. -/
lemma serverClampEqJsSign (a : ℚ) :
    (if MAX_ANGULAR_VELOCITY < |a| then MAX_ANGULAR_VELOCITY * (if 0 < a then (1:ℚ) else -1) else a)
      = if MAX_ANGULAR_VELOCITY < |a| then jsSign a * MAX_ANGULAR_VELOCITY else a := by
  rcases lt_trichotomy a 0 with h | h | h
  · simp only [jsSign, if_neg (not_lt.mpr h.le), if_pos h]
    split_ifs <;> ring
  · subst h
    norm_num [jsSign, MAX_ANGULAR_VELOCITY]
  · simp only [jsSign, if_pos h]
    split_ifs <;> ring

/-- C1 (amended): for every math instance, every starting kinematic state
and every tick, the server step and the client simulateStep produce
identical position, rotation, velocity and angular velocity, provided the
input record has steerValue 0 (digital steering), does not set steerLeft
and steerRight simultaneously, and does not hold nitro with an empty
server-side tank.  These are exactly the situations the counterexample
exploits; outside them the two pipelines agree exactly, term for term. -/
theorem c1_server_client_step_agree (m : JsMath) (c : ServerCar) (i : PlayerInput) (dt : ℚ)
    (h1 : i.steerValue = 0) (h2 : ¬(i.steerLeft = true ∧ i.steerRight = true))
    (h3 : i.nitro = true → 0 < c.nitroAmount) :
    (serverStep m c i dt).toPredicted = simulateStep m c.toPredicted i.toClientRecord := by
  cases hsl : i.steerLeft <;> cases hsr : i.steerRight <;> cases hn : i.nitro
  case true.true.false => exact absurd ⟨hsl, hsr⟩ h2
  case true.true.true => exact absurd ⟨hsl, hsr⟩ h2
  all_goals
    simp [*, serverStep, simulateStep, ServerCar.toPredicted, PlayerInput.toClientRecord,
      vec2Length, rotateVec, SERVER_BODY_MASS, MATTER_DT_SQUARED, MATTER_FRICTION_AIR,
      -mul_ite, -ite_mul]
  all_goals simp only [serverClampEqJsSign]
  all_goals ((try split_ifs) <;> (try simp only [PredictedState.mk.injEq]) <;>
    (repeat' apply And.intro) <;> (first | exact Or.inl True.intro | ring))
  all_goals exact Or.inl True.intro

/-- A digital steering input (steerLeft held, steerValue 0) accelerating
with nitro, for the C1 witness. -/
def demoInputDigital : PlayerInput :=
  { playerId := "p1", sequence := 8, timestamp := 0, accelerate := true,
    brake := false, steerLeft := true, steerRight := false, steerValue := 0,
    nitro := true, handbrake := false, respawn := false }

/-- C1 witness: the amended equivalence applied at a concrete state and
input satisfying all three hypotheses. -/
theorem c1_server_client_step_agree_witness :
    demoInputDigital.steerValue = 0 ∧
      (serverStep testMath demoCar demoInputDigital (1/60)).toPredicted
        = simulateStep testMath demoCar.toPredicted demoInputDigital.toClientRecord :=
  ⟨rfl, c1_server_client_step_agree testMath demoCar demoInputDigital (1/60) rfl
    (by simp [demoInputDigital]) (by intro h; norm_num [demoCar])⟩

/- Wrap-around (server only): `PhysicsEngine.applyWrapAround`. -/

/-- Truncation toward zero, as JavaScript's division underlying `%`. -/
def jsTrunc (q : ℚ) : ℤ := if 0 ≤ q then ⌊q⌋ else ⌈q⌉

/-- The JavaScript remainder operator `x % w`: the remainder of truncating
division, carrying the sign of the dividend. -/
def jsRem (x w : ℚ) : ℚ := x - w * jsTrunc (x / w)

/-- The server-side car fields `applyWrapAround` touches: the body position
and the stuck-detection baseline `lastPosition`. -/
structure WrapCar where
  x : ℚ
  y : ℚ
  lastX : ℚ
  lastY : ℚ
deriving DecidableEq, Repr

/-- PhysicsEngine.applyWrapAround: clean modulo wrap at the exact track
boundaries, per axis, applied only when the coordinate leaves [0, size);
when any axis wrapped, the body position is set and lastPosition is updated
to the wrapped value. -/
def applyWrapAround (w h : ℚ) (car : WrapCar) : WrapCar :=
  let x1 := if car.x < 0 ∨ car.x ≥ w then jsRem (jsRem car.x w + w) w else car.x
  let y1 := if car.y < 0 ∨ car.y ≥ h then jsRem (jsRem car.y h + h) h else car.y
  if (car.x < 0 ∨ car.x ≥ w) ∨ (car.y < 0 ∨ car.y ≥ h) then
    { x := x1, y := y1, lastX := x1, lastY := y1 }
  else car

lemma jsRem_nonneg_bounds {x w : ℚ} (hw : 0 < w) (hx : 0 ≤ x) :
    0 ≤ jsRem x w ∧ jsRem x w < w := by
  have hq : 0 ≤ x / w := div_nonneg hx hw.le
  have h1 : ((⌊x / w⌋ : ℤ) : ℚ) ≤ x / w := Int.floor_le _
  have h2 : x / w < ⌊x / w⌋ + 1 := Int.lt_floor_add_one _
  have hxw : w * (x / w) = x := by field_simp
  rw [jsRem, jsTrunc, if_pos hq]
  constructor
  · nlinarith [mul_le_mul_of_nonneg_left h1 hw.le]
  · nlinarith [mul_lt_mul_of_pos_left h2 hw]

lemma jsRem_neg_bounds {x w : ℚ} (hw : 0 < w) (hx : x < 0) :
    -w < jsRem x w ∧ jsRem x w ≤ 0 := by
  have hq : ¬(0 ≤ x / w) := by
    simp only [not_le]
    exact div_neg_of_neg_of_pos hx hw
  have h1 : x / w ≤ ((⌈x / w⌉ : ℤ) : ℚ) := Int.le_ceil _
  have h2 : ((⌈x / w⌉ : ℤ) : ℚ) < x / w + 1 := Int.ceil_lt_add_one _
  have hxw : w * (x / w) = x := by field_simp
  rw [jsRem, jsTrunc, if_neg hq]
  constructor
  · nlinarith [mul_lt_mul_of_pos_left h2 hw]
  · nlinarith [mul_le_mul_of_nonneg_left h1 hw.le]

/-- The double-remainder idiom ((x % w) + w) % w lands in [0, w). -/
lemma jsRem_wrap_mem {x w : ℚ} (hw : 0 < w) :
    0 ≤ jsRem (jsRem x w + w) w ∧ jsRem (jsRem x w + w) w < w := by
  rcases le_or_lt 0 x with hx | hx
  · have hb := jsRem_nonneg_bounds hw hx
    exact jsRem_nonneg_bounds hw (by linarith [hb.1])
  · have hb := jsRem_neg_bounds hw hx
    exact jsRem_nonneg_bounds hw (by linarith [hb.1])

/-- The double remainder changes x by an integer multiple of w. -/
lemma jsRem_wrap_int_offset (x w : ℚ) :
    ∃ k : ℤ, jsRem (jsRem x w + w) w = x + k * w := by
  refine ⟨1 - jsTrunc (x / w) - jsTrunc ((jsRem x w + w) / w), ?_⟩
  simp only [jsRem]
  push_cast
  ring

/-- C3: on a wrap-around track, applyWrapAround puts every car position into
[0, W) x [0, H) (the physics tick applies it to every car when the track has
wrapAround, so every broadcast snapshot carries in-range positions), changes
each coordinate by an exact integer multiple of the track size, and, whenever
a wrap occurred, resets the last-position baseline to the wrapped value. -/
theorem c3_applyWrapAround_bounds (w h : ℚ) (car : WrapCar) (hw : 0 < w) (hh : 0 < h) :
    (0 ≤ (applyWrapAround w h car).x ∧ (applyWrapAround w h car).x < w) ∧
    (0 ≤ (applyWrapAround w h car).y ∧ (applyWrapAround w h car).y < h) ∧
    (∃ kx ky : ℤ, (applyWrapAround w h car).x = car.x + kx * w ∧
      (applyWrapAround w h car).y = car.y + ky * h) ∧
    (((car.x < 0 ∨ car.x ≥ w) ∨ (car.y < 0 ∨ car.y ≥ h)) →
      (applyWrapAround w h car).lastX = (applyWrapAround w h car).x ∧
      (applyWrapAround w h car).lastY = (applyWrapAround w h car).y) := by
  have hmx := jsRem_wrap_mem (x := car.x) hw
  have hmy := jsRem_wrap_mem (x := car.y) hh
  obtain ⟨kx, hkx⟩ := jsRem_wrap_int_offset car.x w
  obtain ⟨ky, hky⟩ := jsRem_wrap_int_offset car.y h
  by_cases hx : car.x < 0 ∨ car.x ≥ w <;> by_cases hy : car.y < 0 ∨ car.y ≥ h
  · simp only [applyWrapAround, if_pos hx, if_pos hy, if_pos (Or.inl hx)]
    exact ⟨hmx, hmy, ⟨kx, ky, hkx, hky⟩, fun _ => ⟨trivial, trivial⟩⟩
  · simp only [applyWrapAround, if_pos hx, if_neg hy, if_pos (Or.inl hx)]
    have hyin : 0 ≤ car.y ∧ car.y < h := by
      rcases not_or.mp hy with ⟨h1, h2⟩
      exact ⟨not_lt.mp h1, not_le.mp h2⟩
    exact ⟨hmx, hyin, ⟨kx, 0, hkx, by push_cast; ring⟩, fun _ => ⟨trivial, trivial⟩⟩
  · simp only [applyWrapAround, if_neg hx, if_pos hy, if_pos (Or.inr hy)]
    have hxin : 0 ≤ car.x ∧ car.x < w := by
      rcases not_or.mp hx with ⟨h1, h2⟩
      exact ⟨not_lt.mp h1, not_le.mp h2⟩
    exact ⟨hxin, hmy, ⟨0, ky, by push_cast; ring, hky⟩, fun _ => ⟨trivial, trivial⟩⟩
  · have hno : ¬((car.x < 0 ∨ car.x ≥ w) ∨ (car.y < 0 ∨ car.y ≥ h)) := by tauto
    simp only [applyWrapAround, if_neg hx, if_neg hy, if_neg hno]
    have hxin : 0 ≤ car.x ∧ car.x < w := by
      rcases not_or.mp hx with ⟨h1, h2⟩
      exact ⟨not_lt.mp h1, not_le.mp h2⟩
    have hyin : 0 ≤ car.y ∧ car.y < h := by
      rcases not_or.mp hy with ⟨h1, h2⟩
      exact ⟨not_lt.mp h1, not_le.mp h2⟩
    exact ⟨hxin, hyin, ⟨0, 0, by push_cast; ring, by push_cast; ring⟩,
      fun hcon => absurd hcon hno⟩

/- Client prediction module state and reconciliation. -/

def MAX_PENDING_INPUTS : ℕ := 120

/-- Math.round: floor(q + 1/2), JavaScript rounds half toward +infinity. -/
def jsRound (q : ℚ) : ℤ := ⌊q + 1/2⌋

/-- Track bounds held by the client predictor. -/
structure TrackBounds where
  width : ℚ
  height : ℚ
  wrapAround : Bool
deriving DecidableEq, Repr

/-- Module-level state of the client prediction module (the pending-input
FIFO, last confirmed sequence, predicted state, current held input, track
bounds, fixed-timestep accumulator). -/
structure PredictorModule where
  pendingInputs : List InputRecord
  lastConfirmedSequence : ℕ
  predictedState : Option PredictedState
  currentInput : Option InputRecord
  trackBounds : Option TrackBounds
  physicsAccumulator : ℚ
deriving Repr

/-- unwrapPosition: find the copy of pos closest to reference in wrap space
(Math.round of the signed distance divided by the track size); identity when
there are no bounds or the track does not wrap. -/
def unwrapPosition (tb : Option TrackBounds) (px py rx ry : ℚ) : ℚ × ℚ :=
  match tb with
  | none => (px, py)
  | some b =>
    if b.wrapAround then
      let kx : ℤ := jsRound ((rx - px) / b.width)
      let ky : ℤ := jsRound ((ry - py) / b.height)
      (px + kx * b.width, py + ky * b.height)
    else (px, py)

/-- The trim loop of recordInput: shift the oldest entries from the front
while the FIFO is over its cap. -/
def shiftWhileOverCap (l : List InputRecord) : List InputRecord :=
  if l.length > MAX_PENDING_INPUTS then shiftWhileOverCap l.tail else l
termination_by l.length
decreasing_by
  cases l with
  | nil => simp [MAX_PENDING_INPUTS] at *
  | cons a t => simp

/-- recordInput: push a copy of the input, mark it current, trim the FIFO
from the front while it is over MAX_PENDING_INPUTS. -/
def recordInput (mod : PredictorModule) (input : InputRecord) : PredictorModule :=
  { mod with
    pendingInputs := shiftWhileOverCap (mod.pendingInputs ++ [input]),
    currentInput := some input }

/-- reconcileWithServer: drop every pending input the server has processed
(while the head's sequence is at most the acknowledged sequence), record the
confirmed sequence, unwrap the server state into the predictor's frame, then
blend (velocity and angular by 0.15, rotation by the wrap-aware shortest
angle times 0.3) and either hard-snap the position beyond 150 px, blend it
by 0.1 beyond 0.5 px, or leave it.  The debug-overlay telemetry writes are
omitted (nothing reads them here). -/
def reconcileWithServer (m : JsMath) (mod : PredictorModule)
    (serverState : PredictedState) (serverSequence : ℕ) : PredictorModule :=
  let pending1 := mod.pendingInputs.dropWhile (fun i => decide (i.sequence ≤ serverSequence))
  match mod.predictedState with
  | none =>
    { mod with
      pendingInputs := pending1
      lastConfirmedSequence := serverSequence
      predictedState := some serverState }
  | some ps =>
    let unwrapped :=
      if (mod.trackBounds.map (·.wrapAround)).getD false then
        unwrapPosition mod.trackBounds serverState.x serverState.y ps.x ps.y
      else (serverState.x, serverState.y)
    let target : PredictedState := { serverState with x := unwrapped.1, y := unwrapped.2 }
    let dvx := target.vx - ps.vx
    let dvy := target.vy - ps.vy
    let rotDiff := m.atan2 (m.sin (target.rotation - ps.rotation))
      (m.cos (target.rotation - ps.rotation))
    let dx := target.x - ps.x
    let dy := target.y - ps.y
    let dist := m.sqrt (dx * dx + dy * dy)
    let ps1 : PredictedState :=
      { ps with
        vx := ps.vx + dvx * 0.15
        vy := ps.vy + dvy * 0.15
        angularVelocity := ps.angularVelocity + (target.angularVelocity - ps.angularVelocity) * 0.15
        rotation := ps.rotation + rotDiff * 0.3 }
    let ps2 : PredictedState :=
      if dist > 150 then
        target
      else if dist > 0.5 then
        { ps1 with x := ps1.x + dx * 0.1, y := ps1.y + dy * 0.1 }
      else ps1
    { mod with
      pendingInputs := pending1
      lastConfirmedSequence := serverSequence
      predictedState := some ps2 }

/-- Every record surviving the acknowledged-input drop has a sequence
strictly above the acknowledged one, when the FIFO is in ascending order. -/
lemma dropAck_mem_gt (s : ℕ) :
    ∀ l : List InputRecord, List.Pairwise (fun a b => a.sequence ≤ b.sequence) l →
      ∀ j ∈ l.dropWhile (fun i => decide (i.sequence ≤ s)), s < j.sequence := by
  intro l
  induction l with
  | nil => intro _ j hj; simp [List.dropWhile] at hj
  | cons a t ih =>
    intro hp j hj
    rw [List.dropWhile_cons] at hj
    rcases List.pairwise_cons.mp hp with ⟨ha, ht⟩
    by_cases hs : a.sequence ≤ s
    · rw [if_pos (by simpa using hs)] at hj
      exact ih ht j hj
    · rw [if_neg (by simpa using hs)] at hj
      rcases List.mem_cons.mp hj with rfl | hjt
      · exact not_le.mp hs
      · exact lt_of_lt_of_le (not_le.mp hs) (ha j hjt)

/-- C5: for every snapshot acknowledgement and every pending input with
sequence at most the acknowledged sequence, after reconcileWithServer
returns that input is no longer in the FIFO, provided the FIFO is in
ascending sequence order. -/
theorem c5_reconcile_removes_acked (m : JsMath) (mod : PredictorModule)
    (serverState : PredictedState) (serverSequence : ℕ)
    (hs : List.Pairwise (fun a b => a.sequence ≤ b.sequence) mod.pendingInputs)
    (i : InputRecord) (hle : i.sequence ≤ serverSequence) :
    i ∉ (reconcileWithServer m mod serverState serverSequence).pendingInputs := by
  have hpend : (reconcileWithServer m mod serverState serverSequence).pendingInputs
      = mod.pendingInputs.dropWhile (fun i => decide (i.sequence ≤ serverSequence)) := by
    unfold reconcileWithServer
    cases mod.predictedState <;> simp
  rw [hpend]
  intro hmem
  exact absurd hle (not_le.mpr (dropAck_mem_gt serverSequence mod.pendingInputs hs i hmem))

/-- An input record with a given sequence number and all controls clear. -/
def plainInput (n : ℕ) : InputRecord :=
  { sequence := n, timestamp := 0, accelerate := false, brake := false,
    steerLeft := false, steerRight := false, steerValue := 0,
    nitro := false, handbrake := false }

/-- A predictor module holding three pending inputs with sequences 1, 2, 3. -/
def demoModule : PredictorModule :=
  { pendingInputs := [plainInput 1, plainInput 2, plainInput 3],
    lastConfirmedSequence := 0, predictedState := none, currentInput := none,
    trackBounds := none, physicsAccumulator := 0 }

/-- C5 witness: with pending sequences [1, 2, 3] and acknowledgement 2, the
input with sequence 1 is gone from the FIFO after reconciliation. -/
theorem c5_reconcile_removes_acked_witness :
    (plainInput 1).sequence ≤ 2 ∧
      plainInput 1 ∉ (reconcileWithServer testMath demoModule
        ⟨0, 0, 0, 0, 0, 0⟩ 2).pendingInputs :=
  ⟨by norm_num [plainInput],
    c5_reconcile_removes_acked testMath demoModule ⟨0, 0, 0, 0, 0, 0⟩ 2
      (by simp [demoModule, plainInput]) (plainInput 1) (by norm_num [plainInput])⟩

/- Snapshot serialization (`src/shared/types/network.ts`). -/

/-- DamageLevel (`src/shared/types/car.ts`). -/
inductive DamageLevel where
  | none
  | light
  | medium
  | heavy
deriving DecidableEq, Repr

/-- 2D vector (`src/shared/types/physics.ts`, Vector2). -/
structure Vector2 where
  x : ℚ
  y : ℚ
deriving DecidableEq, Repr

/-- CarState (`src/shared/types/car.ts`). -/
structure CarState where
  id : String
  playerId : String
  position : Vector2
  rotation : ℚ
  velocity : Vector2
  angularVelocity : ℚ
  steeringAngle : ℚ
  speed : ℚ
  nitroAmount : ℚ
  damage : DamageLevel
  isAirborne : Bool
  layer : ℤ
  lap : ℤ
  checkpoint : ℤ
  lapTimes : List ℚ
  lastCheckpointTime : ℚ
  finished : Bool
  finishTime : ℚ
  position_rank : ℤ
  lastInputSequence : ℕ
deriving DecidableEq, Repr

/-- CarStateSnapshot, the quantized wire record
(`src/shared/types/network.ts`). -/
structure CarStateSnapshot where
  id : String
  playerId : String
  x : ℚ
  y : ℚ
  rotation : ℚ
  vx : ℚ
  vy : ℚ
  angularVelocity : ℚ
  steeringAngle : ℚ
  speed : ℚ
  nitro : ℤ
  damage : ℤ
  lap : ℤ
  checkpoint : ℤ
  positionRank : ℤ
  finished : Bool
  layer : ℤ
  lastInputSequence : ℕ
deriving DecidableEq, Repr

/-- The serializer's damage encoding:
['none', 'light', 'medium', 'heavy'].indexOf(car.damage). -/
def damageIndex : DamageLevel → ℤ
  | .none => 0
  | .light => 1
  | .medium => 2
  | .heavy => 3

/-- The deserializer's damage decoding: damageMap[snapshot.damage] with
fallback 'none' for out-of-range indices. -/
def damageOfIndex (i : ℤ) : DamageLevel :=
  if i = 0 then .none
  else if i = 1 then .light
  else if i = 2 then .medium
  else if i = 3 then .heavy
  else .none

/-- serializeCarState: quantize position/velocity to 0.01, rotation,
angular velocity and steering to 0.001, speed to 0.1, nitro to an integer;
copy the discrete fields. -/
def serializeCarState (car : CarState) : CarStateSnapshot :=
  { id := car.id
    playerId := car.playerId
    x := (jsRound (car.position.x * 100) : ℚ) / 100
    y := (jsRound (car.position.y * 100) : ℚ) / 100
    rotation := (jsRound (car.rotation * 1000) : ℚ) / 1000
    vx := (jsRound (car.velocity.x * 100) : ℚ) / 100
    vy := (jsRound (car.velocity.y * 100) : ℚ) / 100
    angularVelocity := (jsRound (car.angularVelocity * 1000) : ℚ) / 1000
    steeringAngle := (jsRound (car.steeringAngle * 1000) : ℚ) / 1000
    speed := (jsRound (car.speed * 10) : ℚ) / 10
    nitro := jsRound car.nitroAmount
    damage := damageIndex car.damage
    lap := car.lap
    checkpoint := car.checkpoint
    positionRank := car.position_rank
    finished := car.finished
    layer := car.layer
    lastInputSequence := car.lastInputSequence }

/-- deserializeCarState: rebuild a CarState from the wire record; fields not
on the wire (isAirborne, lapTimes, lastCheckpointTime, finishTime) come from
the optional existing car, with the source's defaults otherwise. -/
def deserializeCarState (snapshot : CarStateSnapshot) (existing : Option CarState) : CarState :=
  { id := snapshot.id
    playerId := snapshot.playerId
    position := ⟨snapshot.x, snapshot.y⟩
    rotation := snapshot.rotation
    velocity := ⟨snapshot.vx, snapshot.vy⟩
    angularVelocity := snapshot.angularVelocity
    steeringAngle := snapshot.steeringAngle
    speed := snapshot.speed
    nitroAmount := (snapshot.nitro : ℚ)
    damage := damageOfIndex snapshot.damage
    isAirborne := (existing.map (·.isAirborne)).getD false
    lap := snapshot.lap
    checkpoint := snapshot.checkpoint
    lapTimes := (existing.map (·.lapTimes)).getD []
    lastCheckpointTime := (existing.map (·.lastCheckpointTime)).getD 0
    finished := snapshot.finished
    finishTime := (existing.map (·.finishTime)).getD 0
    position_rank := snapshot.positionRank
    layer := snapshot.layer
    lastInputSequence := snapshot.lastInputSequence }

/-- Quantizing x to the grid 1/n by JavaScript rounding moves it by at most
1/(2n). -/
lemma abs_jsRound_div_sub_le (x n : ℚ) (hn : 0 < n) :
    |((jsRound (x * n) : ℚ)) / n - x| ≤ 1 / (2 * n) := by
  have h1 : ((⌊x * n + 1/2⌋ : ℤ) : ℚ) ≤ x * n + 1/2 := Int.floor_le _
  have h2 : x * n + 1/2 < ⌊x * n + 1/2⌋ + 1 := Int.lt_floor_add_one _
  have hne : n ≠ 0 := hn.ne'
  have heq : ((jsRound (x * n) : ℚ)) / n - x = ((⌊x * n + 1/2⌋ : ℤ) : ℚ) / n - x := by
    rw [jsRound]
  rw [heq]
  have habs : |((⌊x * n + 1/2⌋ : ℤ) : ℚ) - x * n| ≤ 1/2 :=
    abs_le.mpr ⟨by linarith, by linarith⟩
  have hrw : ((⌊x * n + 1/2⌋ : ℤ) : ℚ) / n - x = (((⌊x * n + 1/2⌋ : ℤ) : ℚ) - x * n) / n := by
    field_simp
    ring
  rw [hrw, abs_div, abs_of_pos hn, show (1:ℚ) / (2 * n) = (1/2) / n by rw [div_div]]
  exact (div_le_div_iff_of_pos_right hn).mpr habs

/-- C8: one serialize/deserialize round trip reproduces position components
within 0.02, rotation within 0.002, velocity components within 0.02, and the
discrete fields (lap, checkpoint, positionRank, finished, layer,
lastInputSequence, damage level) exactly. -/
theorem c8_serialize_roundtrip (car : CarState) :
    |(deserializeCarState (serializeCarState car) none).position.x - car.position.x| ≤ 0.02 ∧
    |(deserializeCarState (serializeCarState car) none).position.y - car.position.y| ≤ 0.02 ∧
    |(deserializeCarState (serializeCarState car) none).rotation - car.rotation| ≤ 0.002 ∧
    |(deserializeCarState (serializeCarState car) none).velocity.x - car.velocity.x| ≤ 0.02 ∧
    |(deserializeCarState (serializeCarState car) none).velocity.y - car.velocity.y| ≤ 0.02 ∧
    (deserializeCarState (serializeCarState car) none).lap = car.lap ∧
    (deserializeCarState (serializeCarState car) none).checkpoint = car.checkpoint ∧
    (deserializeCarState (serializeCarState car) none).position_rank = car.position_rank ∧
    (deserializeCarState (serializeCarState car) none).finished = car.finished ∧
    (deserializeCarState (serializeCarState car) none).layer = car.layer ∧
    (deserializeCarState (serializeCarState car) none).lastInputSequence = car.lastInputSequence ∧
    (deserializeCarState (serializeCarState car) none).damage = car.damage := by
  have h100 : (0:ℚ) < 100 := by norm_num
  have h1000 : (0:ℚ) < 1000 := by norm_num
  refine ⟨?_, ?_, ?_, ?_, ?_, rfl, rfl, rfl, rfl, rfl, rfl, ?_⟩
  · exact le_trans (abs_jsRound_div_sub_le car.position.x 100 h100) (by norm_num)
  · exact le_trans (abs_jsRound_div_sub_le car.position.y 100 h100) (by norm_num)
  · exact le_trans (abs_jsRound_div_sub_le car.rotation 1000 h1000) (by norm_num)
  · exact le_trans (abs_jsRound_div_sub_le car.velocity.x 100 h100) (by norm_num)
  · exact le_trans (abs_jsRound_div_sub_le car.velocity.y 100 h100) (by norm_num)
  · show damageOfIndex (damageIndex car.damage) = car.damage
    cases car.damage <;> rfl

/- Room-level race arbitration (`src/server/game/gameRoom.ts`).  The model
merges the room's CarState entry and the physics engine's per-car state
(input, lastInputSequence) into one record per player, since resetCar
mirrors position, rotation and the zeroed velocities into the physics body.
Wall-clock timer fields are omitted (nothing here reads them). -/

/-- Room lifecycle state. -/
inductive RoomState where
  | waiting
  | countdown
  | racing
  | results
deriving DecidableEq, Repr

/-- The physics/race events a room queues for the next snapshot (the
variants the modelled handlers produce). -/
inductive GameEvent where
  | checkpoint (playerId : String) (checkpoint : ℤ)
  | lap (playerId : String) (lap : ℤ) (time : ℚ)
  | finish (playerId : String) (position : ℤ) (time : ℚ)
  | respawn (playerId : String)
deriving DecidableEq, Repr

/-- A track element (`src/shared/types/track.ts`); `elType` is the `type`
tag. -/
structure TrackElement where
  id : String
  elType : String
  x : ℚ
  y : ℚ
  width : ℚ
  height : ℚ
  rotation : ℚ
  checkpointIndex : Option ℤ
deriving DecidableEq, Repr

/-- A track: bounds, wrap flag and elements. -/
structure Track where
  width : ℚ
  height : ℚ
  wrapAround : Bool
  elements : List TrackElement
deriving DecidableEq, Repr

/-- The checkpoint elements sorted ascending by `checkpointIndex ?? 0`
(Array.prototype.sort is stable; insertionSort is the stable sort used
here, and the keys are integers). -/
def sortedCheckpoints (t : Track) : List TrackElement :=
  (t.elements.filter (fun el => el.elType == "checkpoint")).insertionSort
    (fun a b => a.checkpointIndex.getD 0 ≤ b.checkpointIndex.getD 0)

/-- The spawn-point centers of a track (`PhysicsEngine.getSpawnPoints`). -/
def spawnCenters (t : Track) : List (ℚ × ℚ) :=
  (t.elements.filter (fun el => el.elType == "spawn")).map
    (fun el => (el.x + el.width / 2, el.y + el.height / 2))

/-- The per-player car record a room owns, merged with the physics engine's
per-car bookkeeping. -/
structure RoomCar where
  x : ℚ
  y : ℚ
  rotation : ℚ
  vx : ℚ
  vy : ℚ
  angularVelocity : ℚ
  checkpoint : ℤ
  lap : ℤ
  lapTimes : List ℚ
  finished : Bool
  input : Option PlayerInput
  lastInputSequence : ℕ
deriving DecidableEq, Repr

/-- The room state the modelled GameRoom handlers read and write. -/
structure GameRoomState where
  state : RoomState
  track : Track
  cars : List (String × RoomCar)
  pendingEvents : List GameEvent
  elapsedTime : ℚ
deriving Repr

/-- this.cars.get(playerId). -/
def getCar (room : GameRoomState) (playerId : String) : Option RoomCar :=
  (room.cars.find? (fun pc => pc.1 == playerId)).map Prod.snd

/-- Write back a mutation of one player's car (the TS code mutates the
record held in the cars map in place). -/
def setCar (room : GameRoomState) (playerId : String) (f : RoomCar → RoomCar) : GameRoomState :=
  { room with cars := room.cars.map (fun pc => if pc.1 == playerId then (pc.1, f pc.2) else pc) }

/-- GameRoom.handleRespawn: ignore finished (or absent) cars; find the
checkpoint element at sorted index max(0, checkpoint - 1); when it exists,
teleport the car to its center with its rotation and zero the velocities
(PhysicsEngine.resetCar mirrors the same values into the body); always
queue a respawn event. -/
def handleRespawn (room : GameRoomState) (playerId : String) : GameRoomState :=
  match getCar room playerId with
  | none => room
  | some car =>
    if car.finished then room
    else
      let checkpointIndex : ℤ := max 0 (car.checkpoint - 1)
      let checkpointElements := sortedCheckpoints room.track
      match checkpointElements.get? checkpointIndex.toNat with
      | some el =>
        let room1 := setCar room playerId (fun c =>
          { c with
            x := el.x + el.width / 2
            y := el.y + el.height / 2
            rotation := el.rotation
            vx := 0
            vy := 0
            angularVelocity := 0 })
        { room1 with pendingEvents := room1.pendingEvents ++ [GameEvent.respawn playerId] }
      | none =>
        { room with pendingEvents := room.pendingEvents ++ [GameEvent.respawn playerId] }

/-- PhysicsEngine.applyInput: store the input as the car's current input and
advance lastInputSequence to the input's sequence (always present on the
wire record). -/
def applyInput (room : GameRoomState) (playerId : String) (input : PlayerInput) : GameRoomState :=
  setCar room playerId (fun c =>
    { c with input := some input, lastInputSequence := input.sequence })

/-- GameRoom.handleInput: accept input only during countdown and racing and
only for players with a car; a respawn request is routed to handleRespawn
and the handler returns without forwarding anything to the physics engine;
otherwise the input is applied. -/
def handleInput (room : GameRoomState) (playerId : String) (input : PlayerInput) : GameRoomState :=
  if room.state ≠ RoomState.countdown ∧ room.state ≠ RoomState.racing then room
  else
    match getCar room playerId with
    | none => room
    | some _ =>
      if input.respawn then handleRespawn room playerId
      else applyInput room playerId input

/-- GameRoom.handleLapComplete: record lap and reset checkpoint, compute the
lap time as race elapsed minus the sum of the previously recorded lap times
(Array.prototype.reduce with initial 0 is a left fold), push it, and emit it
as the lap_completed payload (returned here).  The leaderboard submission
and the finish handling that follow in the source do not touch lapTimes. -/
def handleLapComplete (room : GameRoomState) (playerId : String) (lap : ℤ) :
    GameRoomState × Option ℚ :=
  match getCar room playerId with
  | none => (room, none)
  | some car =>
    let now := room.elapsedTime
    let previousLapTotalTime := car.lapTimes.foldl (· + ·) 0
    let actualLapTime := now - previousLapTotalTime
    let room1 := setCar room playerId (fun c =>
      { c with lap := lap, checkpoint := 0, lapTimes := c.lapTimes ++ [actualLapTime] })
    (room1, some actualLapTime)

/-- Reading back the car just mutated. -/
lemma getCar_setCar (room : GameRoomState) (playerId : String) (f : RoomCar → RoomCar) :
    getCar (setCar room playerId f) playerId = (getCar room playerId).map f := by
  unfold getCar setCar
  simp only []
  induction room.cars with
  | nil => rfl
  | cons pc t ih =>
    by_cases h : pc.1 = playerId
    · simp [List.find?_cons, h]
    · have hb : (pc.1 == playerId) = false := by simp [h]
      simp only [List.map_cons, List.find?_cons, hb, Bool.false_eq_true, if_false]
      exact ih

/-- C7: the lap time emitted with each lap_completed equals the race elapsed
time minus the sum of the car's previously recorded lap times, and after the
handler runs the sum of all recorded lap times for that car equals the race
elapsed time at the event. -/
theorem c7_lap_time_sum (room : GameRoomState) (playerId : String) (lap : ℤ) (car : RoomCar)
    (hc : getCar room playerId = some car) :
    (handleLapComplete room playerId lap).2
        = some (room.elapsedTime - car.lapTimes.foldl (· + ·) 0) ∧
      ∃ car', getCar (handleLapComplete room playerId lap).1 playerId = some car' ∧
        car'.lapTimes.foldl (· + ·) 0 = room.elapsedTime := by
  unfold handleLapComplete
  rw [hc]
  refine ⟨rfl, ?_⟩
  rw [getCar_setCar, hc]
  refine ⟨_, rfl, ?_⟩
  simp [List.foldl_append]

/-- A two-checkpoint track: spawn centered at (130, 130), checkpoint 0
centered at (310, 310), checkpoint 1 centered at (550, 550), finish
centered at (130, 80). -/
def demoTrack : Track :=
  { width := 800, height := 600, wrapAround := false,
    elements :=
      [{ id := "sp", elType := "spawn", x := 80, y := 100, width := 100, height := 60,
         rotation := 0, checkpointIndex := none },
       { id := "cp0", elType := "checkpoint", x := 260, y := 260, width := 100, height := 100,
         rotation := 0, checkpointIndex := some 0 },
       { id := "cp1", elType := "checkpoint", x := 500, y := 500, width := 100, height := 100,
         rotation := 0, checkpointIndex := some 1 },
       { id := "fin", elType := "finish", x := 80, y := 70, width := 100, height := 20,
         rotation := 0, checkpointIndex := none }] }

/-- A racing room whose single car has passed no checkpoint yet
(checkpoint = 0) and sits far from the spawn. -/
def demoRoom : GameRoomState :=
  { state := RoomState.racing, track := demoTrack,
    cars := [("p1",
      { x := 700, y := 20, rotation := 1, vx := 3, vy := 2, angularVelocity := 1,
        checkpoint := 0, lap := 0, lapTimes := [], finished := false,
        input := none, lastInputSequence := 5 })],
    pendingEvents := [], elapsedTime := 30000 }

/-- C4 counterexample: respawning the demo car, which has passed no
checkpoint, teleports it to the center of checkpoint 0 at (310, 310), not
to the track's only spawn point, whose center is (130, 130). -/
theorem c4_counterexample :
    (getCar (handleRespawn demoRoom "p1") "p1").map (fun c => (c.x, c.y)) = some (310, 310) ∧
      spawnCenters demoRoom.track = [(130, 130)] ∧
      ¬ ((310:ℚ), (310:ℚ)) ∈ spawnCenters demoRoom.track := by
  refine ⟨?_, ?_, ?_⟩
  · simp [handleRespawn, demoRoom, demoTrack, getCar, setCar, sortedCheckpoints,
      List.insertionSort, List.orderedInsert, List.filter]
    norm_num
  · simp [spawnCenters, demoRoom, demoTrack, List.filter]
    norm_num
  · simp [spawnCenters, demoRoom, demoTrack, List.filter]
    norm_num

/-- C4 (amended): for a present, unfinished car, when a checkpoint element
exists at sorted index max(0, checkpoint - 1) - the last fully-passed
checkpoint, or the first checkpoint when none has been passed yet (the code
never falls back to the spawn point) - handleRespawn teleports the car to
that element's center with its rotation, zeroes velocity and angular
velocity, and appends a respawn event to the pending event queue. -/
theorem c4_respawn_teleports_to_checkpoint (room : GameRoomState) (playerId : String)
    (car : RoomCar) (el : TrackElement)
    (hc : getCar room playerId = some car) (hf : car.finished = false)
    (hel : (sortedCheckpoints room.track).get? (max 0 (car.checkpoint - 1)).toNat = some el) :
    getCar (handleRespawn room playerId) playerId
        = some { car with
            x := el.x + el.width / 2
            y := el.y + el.height / 2
            rotation := el.rotation
            vx := 0
            vy := 0
            angularVelocity := 0 } ∧
      (handleRespawn room playerId).pendingEvents
        = room.pendingEvents ++ [GameEvent.respawn playerId] := by
  unfold handleRespawn
  rw [hc]
  simp only [hf, Bool.false_eq_true, if_false, hel]
  constructor
  · rw [show ∀ r : GameRoomState, ∀ p, getCar { r with pendingEvents := p } playerId
        = getCar r playerId from fun _ _ => rfl]
    rw [getCar_setCar, hc]
    simp [hf]
  · rfl

/-- C4 witness: the amended respawn behavior at the demo room (checkpoint
counter 0, so sorted index 0). -/
theorem c4_respawn_teleports_to_checkpoint_witness :
    (getCar demoRoom "p1").map (fun c => c.finished) = some false ∧
      (handleRespawn demoRoom "p1").pendingEvents
        = demoRoom.pendingEvents ++ [GameEvent.respawn "p1"] := by
  have hc : getCar demoRoom "p1" = some
      { x := 700, y := 20, rotation := 1, vx := 3, vy := 2, angularVelocity := 1,
        checkpoint := 0, lap := 0, lapTimes := [], finished := false,
        input := none, lastInputSequence := 5 } := by
    simp [getCar, demoRoom]
  have hel : (sortedCheckpoints demoRoom.track).get? (max 0 ((0:ℤ) - 1)).toNat = some
      { id := "cp0", elType := "checkpoint", x := 260, y := 260, width := 100, height := 100,
        rotation := 0, checkpointIndex := some 0 } := by
    simp [sortedCheckpoints, demoRoom, demoTrack, List.insertionSort, List.orderedInsert,
      List.filter]
  exact ⟨by rw [hc]; rfl, (c4_respawn_teleports_to_checkpoint demoRoom "p1" _ _ hc rfl hel).2⟩

/-- setCar with a mutation that leaves input and lastInputSequence alone
does not change any car's input view. -/
lemma inputProj_setCar (room : GameRoomState) (playerId : String) (f : RoomCar → RoomCar)
    (hf : ∀ c, (f c).input = c.input ∧ (f c).lastInputSequence = c.lastInputSequence) :
    (setCar room playerId f).cars.map (fun pc => (pc.1, pc.2.input, pc.2.lastInputSequence))
      = room.cars.map (fun pc => (pc.1, pc.2.input, pc.2.lastInputSequence)) := by
  unfold setCar
  simp only [List.map_map]
  apply List.map_congr_left
  intro pc _
  by_cases h : pc.1 = playerId <;> simp [h, (hf pc.2).1, (hf pc.2).2]

/-- handleRespawn never touches any car's stored input or
lastInputSequence. -/
lemma inputProj_handleRespawn (room : GameRoomState) (playerId : String) :
    (handleRespawn room playerId).cars.map (fun pc => (pc.1, pc.2.input, pc.2.lastInputSequence))
      = room.cars.map (fun pc => (pc.1, pc.2.input, pc.2.lastInputSequence)) := by
  unfold handleRespawn
  cases hgc : getCar room playerId with
  | none => rfl
  | some car =>
    by_cases hfin : car.finished = true
    · simp [hfin]
    · simp only [Bool.not_eq_true] at hfin
      simp only [hfin, Bool.false_eq_true, if_false]
      cases hel : (sortedCheckpoints room.track).get? (max 0 (car.checkpoint - 1)).toNat with
      | some el =>
        exact inputProj_setCar room playerId (fun c =>
          { c with
            x := el.x + el.width / 2
            y := el.y + el.height / 2
            rotation := el.rotation
            vx := 0
            vy := 0
            angularVelocity := 0 }) (fun c => ⟨rfl, rfl⟩)
      | none => rfl

/-- C10: an input message with respawn = true is consumed entirely by the
respawn handler: no car's stored physics input changes (so its movement
flags are never applied by the physics step) and no car's
lastInputSequence advances, hence that sequence is never acknowledged in a
snapshot. -/
theorem c10_respawn_input_consumed (room : GameRoomState) (playerId : String)
    (input : PlayerInput) (hr : input.respawn = true) :
    (handleInput room playerId input).cars.map (fun pc => (pc.1, pc.2.input, pc.2.lastInputSequence))
      = room.cars.map (fun pc => (pc.1, pc.2.input, pc.2.lastInputSequence)) := by
  unfold handleInput
  by_cases hguard : room.state ≠ RoomState.countdown ∧ room.state ≠ RoomState.racing
  · rw [if_pos hguard]
  · rw [if_neg hguard]
    cases getCar room playerId with
    | none => rfl
    | some car =>
      simp only [hr, if_true, ite_true]
      exact inputProj_handleRespawn room playerId

/-- A respawn request carrying movement flags and a fresh sequence. -/
def demoRespawnInput : PlayerInput :=
  { playerId := "p1", sequence := 9, timestamp := 0, accelerate := true,
    brake := false, steerLeft := true, steerRight := false, steerValue := 0,
    nitro := true, handbrake := false, respawn := true }

/-- C10 witness: the respawn request leaves every car's stored input and
lastInputSequence untouched in the demo room. -/
theorem c10_respawn_input_consumed_witness :
    demoRespawnInput.respawn = true ∧
      (handleInput demoRoom "p1" demoRespawnInput).cars.map
          (fun pc => (pc.1, pc.2.input, pc.2.lastInputSequence))
        = demoRoom.cars.map (fun pc => (pc.1, pc.2.input, pc.2.lastInputSequence)) :=
  ⟨rfl, c10_respawn_input_consumed demoRoom "p1" demoRespawnInput rfl⟩

/-- C7 witness: the lap-time relation applied at the demo room. -/
theorem c7_lap_time_sum_witness :
    (handleLapComplete demoRoom "p1" 1).2
        = some (demoRoom.elapsedTime -
            ([] : List ℚ).foldl (· + ·) 0) ∧
      ∃ car', getCar (handleLapComplete demoRoom "p1" 1).1 "p1" = some car' ∧
        car'.lapTimes.foldl (· + ·) 0 = demoRoom.elapsedTime :=
  (c7_lap_time_sum demoRoom "p1" 1
    { x := 700, y := 20, rotation := 1, vx := 3, vy := 2, angularVelocity := 1,
      checkpoint := 0, lap := 0, lapTimes := [], finished := false,
      input := none, lastInputSequence := 5 } (by simp [getCar, demoRoom]))

/-- C3 witness: the wrap bounds applied on an 800 x 600 track to a car at
(805, -5). -/
theorem c3_applyWrapAround_bounds_witness :
    (0:ℚ) < 800 ∧ (0:ℚ) < 600 ∧
      (0 ≤ (applyWrapAround 800 600 ⟨805, -5, 40, 40⟩).x ∧
        (applyWrapAround 800 600 ⟨805, -5, 40, 40⟩).x < 800) ∧
      (0 ≤ (applyWrapAround 800 600 ⟨805, -5, 40, 40⟩).y ∧
        (applyWrapAround 800 600 ⟨805, -5, 40, 40⟩).y < 600) :=
  ⟨by norm_num, by norm_num,
    (c3_applyWrapAround_bounds 800 600 ⟨805, -5, 40, 40⟩ (by norm_num) (by norm_num)).1,
    (c3_applyWrapAround_bounds 800 600 ⟨805, -5, 40, 40⟩ (by norm_num) (by norm_num)).2.1⟩

/- The room manager (`src/server/game/roomManager.ts`).  Rooms are modelled
with the fields joinRoom and its callees read: id, code, host, player ids,
capacity, privacy, mid-race-join policy and lifecycle state.  Player
profiles (nickname, color, ready flags) and car creation are not modelled:
no claim reads them.  The code index (roomsByCode) is kept in sync with the
rooms map in the source; here lookup-by-code searches the rooms list
directly. -/

/-- The manager's view of one room. -/
structure MgrRoom where
  id : String
  code : String
  hostId : String
  playerIds : List String
  maxPlayers : ℕ
  isPrivate : Bool
  allowMidRaceJoin : Bool
  state : RoomState
deriving DecidableEq, Repr

/-- GameRoom.isFull: players.size >= settings.maxPlayers. -/
def MgrRoom.isFull (r : MgrRoom) : Bool := r.playerIds.length ≥ r.maxPlayers

/-- GameRoom.addPlayer: an already-present player is returned as-is; a full
room rejects; otherwise the player is appended. -/
def addPlayer (r : MgrRoom) (playerId : String) : Option MgrRoom :=
  if r.playerIds.contains playerId then some r
  else if r.isFull then none
  else some { r with playerIds := r.playerIds ++ [playerId] }

/-- GameRoom.removePlayer: drop the player; when the departing player was
the host and players remain, the first remaining player becomes host. -/
def removePlayerFromRoom (r : MgrRoom) (playerId : String) : MgrRoom :=
  let r1 := { r with playerIds := r.playerIds.erase playerId }
  match r1.playerIds with
  | [] => r1
  | h :: _ => if playerId == r.hostId then { r1 with hostId := h } else r1

/-- The manager state: the rooms map and the playerId-to-roomId index. -/
structure RoomManager where
  rooms : List MgrRoom
  playerRooms : List (String × String)
deriving DecidableEq, Repr

/-- this.rooms.get(roomId). -/
def findRoomById (mgr : RoomManager) (roomId : String) : Option MgrRoom :=
  mgr.rooms.find? (fun r => r.id == roomId)

/-- RoomManager.getPlayerRoom. -/
def getPlayerRoom (mgr : RoomManager) (playerId : String) : Option MgrRoom :=
  match mgr.playerRooms.find? (fun pr => pr.1 == playerId) with
  | none => none
  | some pr => findRoomById mgr pr.2

/-- RoomManager.removeRoom (room shutdown aside). -/
def removeRoom (mgr : RoomManager) (roomId : String) : RoomManager :=
  { mgr with rooms := mgr.rooms.filter (fun r => !(r.id == roomId)) }

/-- RoomManager.leaveRoom: remove the player from their current room, drop
the index entry, and remove the room when it became empty. -/
def leaveRoom (mgr : RoomManager) (playerId : String) : RoomManager :=
  match getPlayerRoom mgr playerId with
  | none => mgr
  | some room =>
    let room1 := removePlayerFromRoom room playerId
    let mgr1 : RoomManager :=
      { rooms := mgr.rooms.map (fun r => if r.id == room.id then room1 else r)
        playerRooms := mgr.playerRooms.filter (fun pr => !(pr.1 == playerId)) }
    if room1.playerIds.isEmpty then removeRoom mgr1 room.id else mgr1

/-- The result of joinRoom: success with the joined room, or an error
message. -/
inductive JoinOutcome where
  | ok (roomId : String)
  | err (msg : String)
deriving DecidableEq, Repr

/-- The joinRoom lookup: by id first, then by upper-cased code. -/
def findRoom (mgr : RoomManager) (roomIdOrCode : String) : Option MgrRoom :=
  match mgr.rooms.find? (fun r => r.id == roomIdOrCode) with
  | some r => some r
  | none => mgr.rooms.find? (fun r => r.code == roomIdOrCode.toUpper)

/-- RoomManager.joinRoom: not-found, full and racing-without-mid-race-join
fail with a reason; otherwise the player leaves any previous room and is
added.  The source holds an object reference to the found room across the
leave, so the model re-reads the room from the updated manager (falling
back to the alias's view, the room minus the player, when the leave emptied
and removed it). -/
def joinRoom (mgr : RoomManager) (roomIdOrCode playerId : String) : JoinOutcome × RoomManager :=
  match findRoom mgr roomIdOrCode with
  | none => (JoinOutcome.err "Room not found", mgr)
  | some room =>
    if room.isFull then (JoinOutcome.err "Room is full", mgr)
    else if room.state == RoomState.racing && !room.allowMidRaceJoin then
      (JoinOutcome.err "Race already in progress", mgr)
    else
      let mgr1 := if (getPlayerRoom mgr playerId).isSome then leaveRoom mgr playerId else mgr
      let room1 := match findRoomById mgr1 room.id with
        | some r => r
        | none => removePlayerFromRoom room playerId
      match addPlayer room1 playerId with
      | none => (JoinOutcome.err "Failed to join room", mgr1)
      | some room2 =>
        (JoinOutcome.ok room.id,
          { rooms := mgr1.rooms.map (fun r => if r.id == room2.id then room2 else r)
            playerRooms :=
              mgr1.playerRooms.filter (fun pr => !(pr.1 == playerId)) ++ [(playerId, room.id)] })

/-- A private, waiting, non-full room known to the manager. -/
def demoMgrRoom : MgrRoom :=
  { id := "room-1", code := "ABC234", hostId := "host", playerIds := ["host"],
    maxPlayers := 8, isPrivate := true, allowMidRaceJoin := true,
    state := RoomState.waiting }

/-- A manager holding only the private demo room. -/
def demoMgr : RoomManager :=
  { rooms := [demoMgrRoom], playerRooms := [("host", "room-1")] }

/-- C6 counterexample: joining a private room by id succeeds; joinRoom has
no privacy check at all, so the claimed private-join-by-id failure case
does not exist in the code. -/
theorem c6_counterexample :
    (joinRoom demoMgr "room-1" "p2").1 = JoinOutcome.ok "room-1" ∧
      (findRoom demoMgr "room-1").map (fun r => r.isPrivate) = some true := by
  constructor <;> rfl

/-- removePlayerFromRoom keeps id and capacity and can only shrink the
player list. -/
lemma removePlayer_fields (r : MgrRoom) (p : String) :
    (removePlayerFromRoom r p).id = r.id ∧
      (removePlayerFromRoom r p).maxPlayers = r.maxPlayers ∧
      (removePlayerFromRoom r p).playerIds.length ≤ r.playerIds.length := by
  unfold removePlayerFromRoom
  have hle := (List.erase_sublist p r.playerIds).length_le
  cases h : r.playerIds.erase p with
  | nil => simp [h] at hle ⊢
  | cons a t =>
    by_cases hh : p == r.hostId <;> simp [h, hh] at hle ⊢ <;> omega

/-- The room a findRoom lookup returns is in the manager's rooms list. -/
lemma mem_of_findRoom {mgr : RoomManager} {s : String} {r : MgrRoom}
    (h : findRoom mgr s = some r) : r ∈ mgr.rooms := by
  unfold findRoom at h
  cases h1 : mgr.rooms.find? (fun x => x.id == s) with
  | some r0 =>
    rw [h1] at h
    cases h
    exact List.mem_of_find?_eq_some h1
  | none =>
    rw [h1] at h
    exact List.mem_of_find?_eq_some h

/-- Every room in the manager after a leaveRoom descends from a room before
it with the same id, the same capacity and at most as many players. -/
lemma leaveRoom_rooms_origin (mgr : RoomManager) (p : String) :
    ∀ r' ∈ (leaveRoom mgr p).rooms,
      ∃ r ∈ mgr.rooms, r'.id = r.id ∧ r'.maxPlayers = r.maxPlayers ∧
        r'.playerIds.length ≤ r.playerIds.length := by
  unfold leaveRoom
  cases hc : getPlayerRoom mgr p with
  | none => exact fun r' hr' => ⟨r', hr', rfl, rfl, le_refl _⟩
  | some cur =>
    have hcur : cur ∈ mgr.rooms := by
      unfold getPlayerRoom at hc
      cases hf : mgr.playerRooms.find? (fun pr => pr.1 == p) with
      | none => rw [hf] at hc; cases hc
      | some pr =>
        rw [hf] at hc
        exact List.mem_of_find?_eq_some hc
    intro r' hr'
    have hmap : r' ∈ mgr.rooms.map
        (fun r => if r.id == cur.id then removePlayerFromRoom cur p else r) := by
      by_cases he : (removePlayerFromRoom cur p).playerIds.isEmpty <;>
        simp only [he, if_true, if_false, ite_true, ite_false] at hr'
      · exact List.mem_of_mem_filter hr'
      · exact hr'
    obtain ⟨r, hrm, hr⟩ := List.mem_map.mp hmap
    by_cases hid : r.id == cur.id
    · rw [if_pos hid] at hr
      obtain ⟨h1, h2, h3⟩ := removePlayer_fields cur p
      exact ⟨cur, hcur, hr ▸ h1, hr ▸ h2, hr ▸ h3⟩
    · rw [if_neg hid] at hr
      exact ⟨r, hrm, hr ▸ rfl, hr ▸ rfl, hr ▸ le_refl _⟩

/-- C6 (amended): joinRoom fails with a reason exactly when the lookup (by
id or code) finds no room, the room is full, or the room is racing with
allowMidRaceJoin = false; in particular a join to a private room by id is
NOT rejected - joinRoom performs no privacy check (privacy only hides the
room from the public listing).  The hypothesis is the manager invariant
that room ids are distinct (the source keys rooms by id in a Map). -/
theorem c6_joinRoom_failure_iff (mgr : RoomManager) (roomIdOrCode playerId : String)
    (hno : (mgr.rooms.map (fun r => r.id)).Nodup) :
    (∃ msg, (joinRoom mgr roomIdOrCode playerId).1 = JoinOutcome.err msg)
      ↔ (findRoom mgr roomIdOrCode = none
          ∨ ∃ room, findRoom mgr roomIdOrCode = some room ∧
              (room.isFull = true ∨
                (room.state = RoomState.racing ∧ room.allowMidRaceJoin = false))) := by
  unfold joinRoom
  cases hfr : findRoom mgr roomIdOrCode with
  | none => simp
  | some room =>
    have hroom : room ∈ mgr.rooms := mem_of_findRoom hfr
    by_cases hfull : room.isFull
    · simp only [hfull, ite_true, if_true]
      constructor
      · intro _
        exact Or.inr ⟨room, rfl, Or.inl hfull⟩
      · intro _
        exact ⟨"Room is full", rfl⟩
    · by_cases hrace : room.state == RoomState.racing && !room.allowMidRaceJoin
      · simp only [hfull, hrace, Bool.false_eq_true, if_false, ite_false, if_true, ite_true]
        constructor
        · intro _
          rcases Bool.and_eq_true_iff.mp hrace with ⟨h1, h2⟩
          exact Or.inr ⟨room, rfl, Or.inr ⟨by simpa using h1, by simpa using h2⟩⟩
        · intro _
          exact ⟨"Race already in progress", rfl⟩
      · have hlt : room.playerIds.length < room.maxPlayers := by
          unfold MgrRoom.isFull at hfull
          simpa using hfull
        have hkey : ∀ room1 : MgrRoom, room1.maxPlayers = room.maxPlayers →
            room1.playerIds.length ≤ room.playerIds.length →
            ∃ room2, addPlayer room1 playerId = some room2 := by
          intro room1 hmax1 hlen1
          unfold addPlayer
          by_cases hcontains : room1.playerIds.contains playerId
          · exact ⟨room1, by rw [if_pos hcontains]⟩
          · have hnotfull : room1.isFull = false := by
              unfold MgrRoom.isFull
              simp only [decide_eq_false_iff_not, not_le]
              omega
            refine ⟨{ room1 with playerIds := room1.playerIds ++ [playerId] }, ?_⟩
            rw [if_neg hcontains]
            simp [hnotfull]
        have haddok : ∃ room2, addPlayer
            (match findRoomById (if (getPlayerRoom mgr playerId).isSome then leaveRoom mgr playerId else mgr) room.id with
              | some r => r
              | none => removePlayerFromRoom room playerId) playerId = some room2 := by
          cases hfb : findRoomById (if (getPlayerRoom mgr playerId).isSome then leaveRoom mgr playerId else mgr) room.id with
          | none =>
            obtain ⟨_, h2, h3⟩ := removePlayer_fields room playerId
            exact hkey _ h2 h3
          | some rf =>
            have hpred := List.find?_some hfb
            have hmem := List.mem_of_find?_eq_some hfb
            have hid : rf.id = room.id := by simpa using hpred
            by_cases hs : (getPlayerRoom mgr playerId).isSome
            · rw [if_pos hs] at hmem
              obtain ⟨r, hrm, hid2, hmax, hlen⟩ := leaveRoom_rooms_origin mgr playerId rf hmem
              have hrr : r = room :=
                List.inj_on_of_nodup_map hno hrm hroom (by rw [← hid2, hid])
              subst hrr
              exact hkey rf hmax hlen
            · rw [if_neg hs] at hmem
              have hrr : rf = room := List.inj_on_of_nodup_map hno hmem hroom hid
              subst hrr
              exact hkey rf rfl (le_refl _)
        obtain ⟨room2, hadd⟩ := haddok
        simp only [hfull, hrace, Bool.false_eq_true, if_false, ite_false]
        rw [hadd]
        constructor
        · rintro ⟨msg, hmsg⟩
          cases hmsg
        · rintro (hnone | ⟨room', hsome, hcond⟩)
          · cases hnone
          · injection hsome with h
            subst h
            rcases hcond with hfl | ⟨hst, hal⟩
            · exact absurd hfl hfull
            · exact absurd (by simp [hst, hal] : (room.state == RoomState.racing && !room.allowMidRaceJoin) = true) hrace

/-- C6 witness: the failure characterization applied to the demo manager
(whose single room id is trivially duplicate-free). -/
theorem c6_joinRoom_failure_iff_witness :
    (demoMgr.rooms.map (fun r => r.id)).Nodup ∧
      ((∃ msg, (joinRoom demoMgr "room-1" "p2").1 = JoinOutcome.err msg)
        ↔ (findRoom demoMgr "room-1" = none
            ∨ ∃ room, findRoom demoMgr "room-1" = some room ∧
                (room.isFull = true ∨
                  (room.state = RoomState.racing ∧ room.allowMidRaceJoin = false)))) :=
  ⟨by simp [demoMgr],
    c6_joinRoom_failure_iff demoMgr "room-1" "p2" (by simp [demoMgr])⟩

/- Leaderboards (`src/server/leaderboards/leaderboardManager.ts`,
`src/shared/types/leaderboard.ts`). -/

def MAX_LEADERBOARD_ENTRIES : ℕ := 100

/-- A leaderboard entry. -/
structure LBEntry where
  id : String
  nickname : String
  time : ℚ
  date : ℚ
  ghostId : Option String
deriving DecidableEq, Repr

/-- String.prototype.toLowerCase, over the character list.  For the
nicknames the gateway admits (2-16 characters in [A-Za-z0-9_-]) ASCII
lowercasing is exact. -/
def jsToLower (s : String) : String := ⟨s.data.map Char.toLower⟩

/-- The case-insensitive nickname comparison the manager uses. -/
def sameNick (a b : String) : Bool := jsToLower a == jsToLower b

/-- findIndex together with the found element (the source reads
board[existingIndex] right after findIndex). -/
def findIdxEntry? (p : LBEntry → Bool) : List LBEntry → Option (ℕ × LBEntry)
  | [] => none
  | e :: rest =>
    if p e then some (0, e)
    else (findIdxEntry? p rest).map (fun ie => (ie.1 + 1, ie.2))

/-- LeaderboardManager.submitLapTime on the bestLapTimes list.  The fresh
UUID and Date.now() of the new entry are passed in as values.  Returns the
new list, the reported rank (1-based) and the isNewRecord flag.  The
storage write is omitted (it persists the same list). -/
def submitLapTime (board : List LBEntry) (nickname : String) (time : ℚ)
    (newId : String) (newDate : ℚ) (ghostId : Option String) :
    List LBEntry × ℕ × Bool :=
  let entry : LBEntry :=
    { id := newId, nickname := nickname, time := time, date := newDate, ghostId := ghostId }
  -- findIndex(e => e.time > time), with -1 mapped to length
  let rank := board.findIdx (fun e => decide (e.time > time))
  match findIdxEntry? (fun e => sameNick e.nickname nickname) board with
  | none =>
    let b1 := board.insertIdx rank entry
    let b2 := if b1.length > MAX_LEADERBOARD_ENTRIES then b1.take MAX_LEADERBOARD_ENTRIES else b1
    (b2, rank + 1, rank == 0)
  | some ie =>
    if ie.2.time > time then
      let b1 := board.eraseIdx ie.1
      let rank2 := if ie.1 < rank then rank - 1 else rank
      let b2 := b1.insertIdx rank2 entry
      let b3 := if b2.length > MAX_LEADERBOARD_ENTRIES then b2.take MAX_LEADERBOARD_ENTRIES else b2
      (b3, rank2 + 1, rank2 == 0)
    else (board, rank + 1, false)

/-- Everything beyond the insertion rank of a sorted board is strictly
slower than the submitted time. -/
lemma drop_findIdx_gt (time : ℚ) :
    ∀ l : List LBEntry, l.Pairwise (fun a b => a.time ≤ b.time) →
      ∀ e ∈ l.drop (l.findIdx (fun e => decide (e.time > time))), time < e.time := by
  intro l
  induction l with
  | nil => intro _ e he; simp at he
  | cons a t ih =>
    intro hp e he
    rcases List.pairwise_cons.mp hp with ⟨ha, ht⟩
    by_cases hq : a.time > time
    · rw [List.findIdx_cons] at he
      simp only [hq, decide_eq_true_eq, cond_true, List.drop_zero, decide_eq_true] at he
      rcases List.mem_cons.mp he with rfl | het
      · exact hq
      · exact lt_of_lt_of_le hq (ha e het)
    · rw [List.findIdx_cons] at he
      rw [show decide (a.time > time) = false from decide_eq_false hq] at he
      simp only [cond_false, List.drop_succ_cons] at he
      exact ih ht e he

/-- Everything before the insertion rank fails the rank predicate. -/
lemma take_findIdx_not (p : LBEntry → Bool) :
    ∀ l : List LBEntry, ∀ e ∈ l.take (l.findIdx p), p e = false := by
  intro l
  induction l with
  | nil => intro e he; simp at he
  | cons a t ih =>
    intro e he
    rw [List.findIdx_cons] at he
    by_cases hq : p a
    · simp [hq] at he
    · simp only [hq, cond_false, List.take_succ_cons] at he
      rcases List.mem_cons.mp he with rfl | het
      · simpa using hq
      · exact ih e het

/-- A board whose nickname filter is the single entry x splits as
l1 ++ x :: l2 with no other matching entry, and findIdxEntry? finds x at
index l1.length. -/
lemma filter_singleton_decomp (p : LBEntry → Bool) :
    ∀ l : List LBEntry, ∀ x : LBEntry, l.filter p = [x] →
      ∃ l1 l2, l = l1 ++ x :: l2 ∧ (∀ e ∈ l1, p e = false) ∧ (∀ e ∈ l2, p e = false) ∧
        findIdxEntry? p l = some (l1.length, x) := by
  intro l
  induction l with
  | nil => intro x hx; simp at hx
  | cons a t ih =>
    intro x hx
    by_cases hpa : p a
    · rw [List.filter_cons_of_pos hpa] at hx
      injection hx with h1 h2
      subst h1
      refine ⟨[], t, rfl, by simp, ?_, ?_⟩
      · intro e he
        have := List.filter_eq_nil_iff.mp h2 e he
        simpa using this
      · unfold findIdxEntry?
        rw [if_pos hpa]
        rfl
    · rw [List.filter_cons_of_neg hpa] at hx
      obtain ⟨l1, l2, hdec, hl1, hl2, hfind⟩ := ih x hx
      refine ⟨a :: l1, l2, by rw [hdec]; rfl, ?_, hl2, ?_⟩
      · intro e he
        rcases List.mem_cons.mp he with rfl | he1
        · simpa using hpa
        · exact hl1 e he1
      · unfold findIdxEntry?
        rw [if_neg (by simpa using hpa), hfind]
        rfl

/-- findIndex lands at or before any element satisfying the predicate. -/
lemma findIdx_le_of_sat (p : LBEntry → Bool) (x : LBEntry) (hx : p x = true) :
    ∀ l1 l2 : List LBEntry, (l1 ++ x :: l2).findIdx p ≤ l1.length := by
  intro l1
  induction l1 with
  | nil =>
    intro l2
    rw [List.nil_append, List.findIdx_cons, hx]
    simp
  | cons a t ih =>
    intro l2
    rw [List.cons_append, List.findIdx_cons]
    by_cases hpa : p a
    · simp [hpa]
    · rw [show p a = false from by simpa using hpa]
      simpa using ih l2

/-- Splicing out the element at the split point. -/
lemma eraseIdx_append_length :
    ∀ (l1 : List LBEntry) (x : LBEntry) (l2 : List LBEntry),
      (l1 ++ x :: l2).eraseIdx l1.length = l1 ++ l2 := by
  intro l1
  induction l1 with
  | nil => intro x l2; rfl
  | cons a t ih =>
    intro x l2
    simp only [List.cons_append, List.length_cons, List.eraseIdx_cons_succ]
    rw [ih]

/-- Any member of an insertIdx result is the inserted element or an original
member (with no bound on the index). -/
lemma mem_insertIdx_sub :
    ∀ (n : ℕ) (x : LBEntry) (l : List LBEntry), ∀ e ∈ l.insertIdx n x, e = x ∨ e ∈ l := by
  intro n
  induction n with
  | zero =>
    intro x l e he
    rw [List.insertIdx_zero] at he
    exact List.mem_cons.mp he
  | succ n ih =>
    intro x l e he
    cases l with
    | nil => simp at he
    | cons a t =>
      rw [List.insertIdx_succ_cons] at he
      rcases List.mem_cons.mp he with rfl | he1
      · exact Or.inr (List.mem_cons_self _ _)
      · rcases ih x t e he1 with h | h
        · exact Or.inl h
        · exact Or.inr (List.mem_cons_of_mem _ h)

/-- Inserting an entry at a position bounded below by everything before it
and above by everything after keeps the time ordering. -/
lemma pairwise_insertIdx_time :
    ∀ (n : ℕ) (l : List LBEntry) (entry : LBEntry),
      l.Pairwise (fun a b => a.time ≤ b.time) →
      (∀ e ∈ l.take n, e.time ≤ entry.time) →
      (∀ e ∈ l.drop n, entry.time ≤ e.time) →
      (l.insertIdx n entry).Pairwise (fun a b => a.time ≤ b.time) := by
  intro n
  induction n with
  | zero =>
    intro l entry hp _ ha
    rw [List.insertIdx_zero]
    exact List.pairwise_cons.mpr ⟨fun e he => ha e (by simpa using he), hp⟩
  | succ n ih =>
    intro l entry hp hb ha
    cases l with
    | nil => simp
    | cons a t =>
      rw [List.insertIdx_succ_cons]
      rcases List.pairwise_cons.mp hp with ⟨hhead, htail⟩
      refine List.pairwise_cons.mpr ⟨?_, ?_⟩
      · intro e he
        rcases mem_insertIdx_sub n entry t e he with rfl | he1
        · exact hb a (by simp)
        · exact hhead e he1
      · exact ih t entry htail
          (fun e he => hb e (by rw [List.take_succ_cons]; exact List.mem_cons_of_mem _ he))
          (fun e he => ha e (by rwa [List.drop_succ_cons]))

/-- C9: on a sorted board of at most 100 entries where the player (compared
case-insensitively) has exactly one prior entry: a strictly better time
removes the prior entry, inserts the new entry keeping the list sorted
ascending by time, and leaves at most 100 entries; a time not better than
the prior leaves the board unchanged. -/
theorem c9_submitLapTime_spec (board : List LBEntry) (nickname : String) (time : ℚ)
    (newId : String) (newDate : ℚ) (ghostId : Option String) (prior : LBEntry)
    (hs : board.Pairwise (fun a b => a.time ≤ b.time))
    (hlen : board.length ≤ MAX_LEADERBOARD_ENTRIES)
    (hfilter : board.filter (fun e => sameNick e.nickname nickname) = [prior]) :
    (time < prior.time →
      ((submitLapTime board nickname time newId newDate ghostId).1.Pairwise
          (fun a b => a.time ≤ b.time) ∧
        ({ id := newId, nickname := nickname, time := time, date := newDate,
            ghostId := ghostId } : LBEntry)
          ∈ (submitLapTime board nickname time newId newDate ghostId).1 ∧
        prior ∉ (submitLapTime board nickname time newId newDate ghostId).1 ∧
        (submitLapTime board nickname time newId newDate ghostId).1.length
          ≤ MAX_LEADERBOARD_ENTRIES)) ∧
    (¬ time < prior.time →
      (submitLapTime board nickname time newId newDate ghostId).1 = board) := by
  obtain ⟨l1, l2, hdec, hl1, hl2, hfind⟩ :=
    filter_singleton_decomp (fun e => sameNick e.nickname nickname) board prior hfilter
  have hlendec : board.length = l1.length + l2.length + 1 := by
    rw [hdec]
    simp
    omega
  unfold submitLapTime
  rw [hfind]
  simp only []
  constructor
  · intro hbetter
    rw [if_pos (show ((l1.length, prior) : ℕ × LBEntry).2.time > time from hbetter)]
    have hrankle : board.findIdx (fun e => decide (e.time > time)) ≤ l1.length := by
      rw [hdec]
      exact findIdx_le_of_sat _ prior (decide_eq_true hbetter) l1 l2
    have hrank2 : (if ((l1.length, prior) : ℕ × LBEntry).1
          < board.findIdx (fun e => decide (e.time > time)) then
            board.findIdx (fun e => decide (e.time > time)) - 1
          else board.findIdx (fun e => decide (e.time > time)))
        = board.findIdx (fun e => decide (e.time > time)) :=
      if_neg (not_lt.mpr hrankle)
    rw [hrank2]
    have herase : board.eraseIdx ((l1.length, prior) : ℕ × LBEntry).1 = l1 ++ l2 := by
      rw [hdec]
      exact eraseIdx_append_length l1 prior l2
    rw [herase]
    have hsub : (l1 ++ l2).Sublist board := by
      rw [hdec]
      exact (List.sublist_cons_self prior l2).append_left l1
    have hranklen : board.findIdx (fun e => decide (e.time > time)) ≤ (l1 ++ l2).length := by
      rw [List.length_append]
      omega
    have hlenb2 : ((l1 ++ l2).insertIdx (board.findIdx (fun e => decide (e.time > time)))
        { id := newId, nickname := nickname, time := time, date := newDate,
          ghostId := ghostId }).length = board.length := by
      rw [List.length_insertIdx _ _ hranklen, List.length_append]
      omega
    have hnotrunc : ¬ ((l1 ++ l2).insertIdx (board.findIdx (fun e => decide (e.time > time)))
        { id := newId, nickname := nickname, time := time, date := newDate,
          ghostId := ghostId }).length > MAX_LEADERBOARD_ENTRIES := by
      rw [hlenb2]
      omega
    rw [if_neg hnotrunc]
    have hsorted : ((l1 ++ l2).insertIdx (board.findIdx (fun e => decide (e.time > time)))
        { id := newId, nickname := nickname, time := time, date := newDate,
          ghostId := ghostId }).Pairwise (fun a b => a.time ≤ b.time) := by
      apply pairwise_insertIdx_time
      · exact hs.sublist hsub
      · intro e he
        have htake1 : (l1 ++ l2).take (board.findIdx (fun e => decide (e.time > time)))
            = l1.take (board.findIdx (fun e => decide (e.time > time))) :=
          List.take_append_of_le_length hrankle
        have htake2 : ∀ n, n ≤ l1.length → board.take n = l1.take n := by
          intro n hn
          rw [hdec]
          exact List.take_append_of_le_length hn
        rw [htake1, ← htake2 _ hrankle] at he
        have := take_findIdx_not (fun e => decide (e.time > time)) board e he
        simp only [decide_eq_false_iff_not, not_lt] at this
        exact this
      · intro e he
        have hmem : e ∈ board.drop (board.findIdx (fun e => decide (e.time > time))) :=
          (hsub.drop _).subset he
        exact le_of_lt (drop_findIdx_gt time board hs e hmem)
    refine ⟨hsorted, ?_, ?_, ?_⟩
    · exact (List.mem_insertIdx hranklen).mpr (Or.inl rfl)
    · intro hmem
      rcases mem_insertIdx_sub _ _ _ prior hmem with heq | hin
      · rw [heq] at hbetter
        simp at hbetter
      · rcases List.mem_append.mp hin with h | h
        · have := hl1 prior h
          rw [List.of_mem_filter (show prior ∈ board.filter (fun e => sameNick e.nickname nickname) from by rw [hfilter]; simp)] at this
          cases this
        · have := hl2 prior h
          rw [List.of_mem_filter (show prior ∈ board.filter (fun e => sameNick e.nickname nickname) from by rw [hfilter]; simp)] at this
          cases this
    · rw [hlenb2]
      exact hlen
  · intro hnb
    rw [if_neg (show ¬ ((l1.length, prior) : ℕ × LBEntry).2.time > time from hnb)]

/-- Existing leaderboard entries for the C9 witness. -/
def lbAlice : LBEntry :=
  { id := "a1", nickname := "alice", time := 50, date := 0, ghostId := none }

/-- The prior entry of the player Bob (stored with a capital B). -/
def lbBob : LBEntry :=
  { id := "b1", nickname := "Bob", time := 60, date := 0, ghostId := none }

/-- C9 witness: submitting 55 for nickname bob (case-insensitively matching
the stored Bob entry at 60) inserts the new entry and removes the prior
one. -/
theorem c9_submitLapTime_spec_witness :
    ((55:ℚ) < lbBob.time) ∧
      ({ id := "n1", nickname := "bob", time := 55, date := 1, ghostId := none } : LBEntry)
        ∈ (submitLapTime [lbAlice, lbBob] "bob" 55 "n1" 1 none).1 ∧
      lbBob ∉ (submitLapTime [lbAlice, lbBob] "bob" 55 "n1" 1 none).1 := by
  have h1 : sameNick "alice" "bob" = false := by decide
  have h2 : sameNick "Bob" "bob" = true := by decide

  have hs : ([lbAlice, lbBob] : List LBEntry).Pairwise (fun a b => a.time ≤ b.time) := by
    simp [lbAlice, lbBob]
    norm_num
  have hlen : ([lbAlice, lbBob] : List LBEntry).length ≤ MAX_LEADERBOARD_ENTRIES := by
    simp [MAX_LEADERBOARD_ENTRIES]
  have hfilter : ([lbAlice, lbBob] : List LBEntry).filter
      (fun e => sameNick e.nickname "bob") = [lbBob] := by
    simp [List.filter, lbAlice, lbBob, h1, h2]
  have hbetter : (55:ℚ) < lbBob.time := by norm_num [lbBob]
  have happ := (c9_submitLapTime_spec [lbAlice, lbBob] "bob" 55 "n1" 1 none lbBob
    hs hlen hfilter).1 hbetter
  exact ⟨hbetter, happ.2.1, happ.2.2.1⟩
